import Mathlib

/-!
Verification of the multi-stage retrieval pipeline of the jewelry search
backend (`backend/search_engine/`): query analysis (category and negation
extraction, query rewriting, probe-term synthesis), the three-stage
candidate filter, the embedding cache, hybrid query combination and the
recommend operation.

The embedding is shallow: Python string operations are modelled over
`List Char` with structural recursion so the kernel can evaluate them;
vector components and scores use `ℚ` (exact stand-in for the finite float
values the code manipulates); the CLIP embedding model, the torch vector
normalization kernel and the Qdrant vector index are external
collaborators and appear as function parameters.
-/

namespace JewelrySearch

/-! ## Python string semantics -/

/-- Python `str.lower()` (ASCII case folding, which covers every input the
pipeline handles). -/
def pyLower (s : String) : String := String.mk (s.toList.map Char.toLower)

/-- Membership of `needle` as a contiguous sublist of the haystack, the
model of Python's `needle in hay` on strings. -/
def containsSubList (needle : List Char) : List Char → Bool
  | [] => needle.isEmpty
  | c :: rest => needle.isPrefixOf (c :: rest) || containsSubList needle rest

/-- Python `needle in hay` for strings. -/
def containsSub (hay needle : String) : Bool :=
  containsSubList needle.toList hay.toList

/-- Accumulator-based splitter behind `pySplitWords`; `cur` holds the
characters of the word in progress, reversed. -/
def splitWordsAux (cur : List Char) : List Char → List (List Char)
  | [] => if cur.isEmpty then [] else [cur.reverse]
  | c :: rest =>
    if c.isWhitespace then
      if cur.isEmpty then splitWordsAux [] rest
      else cur.reverse :: splitWordsAux [] rest
    else splitWordsAux (c :: cur) rest

/-- Python `str.split()` with no argument: split on whitespace runs,
discarding empty fields. -/
def pySplitWords (s : String) : List String :=
  (splitWordsAux [] s.toList).map String.mk

/-- Python `str.strip()`: drop leading and trailing whitespace. -/
def pyStrip (s : String) : String :=
  String.mk (((s.toList.dropWhile Char.isWhitespace).reverse.dropWhile
    Char.isWhitespace).reverse)

/-- Worker for `splitOnStr`. The `Nat` argument counts separator characters
still to be skipped after a match, which keeps the recursion structural in
the scanned list (so the kernel can evaluate it). -/
def splitOnAux (sep : List Char) (acc : List Char) :
    List Char → Nat → List (List Char)
  | [], _ => [acc.reverse]
  | _ :: rest, Nat.succ k => splitOnAux sep acc rest k
  | c :: rest, 0 =>
    if sep ≠ [] ∧ sep.isPrefixOf (c :: rest) = true then
      acc.reverse :: splitOnAux sep [] rest (sep.length - 1)
    else splitOnAux sep (c :: acc) rest 0

/-- Python `s.split(sep)` for a non-empty separator: leftmost,
non-overlapping occurrences delimit the fields, empty fields kept. -/
def splitOnStr (sep s : String) : List String :=
  (splitOnAux sep.toList [] s.toList 0).map String.mk

/-- Worker for `pyReplace`, same skip-counter device as `splitOnAux`. -/
def replaceAux (pat rep : List Char) : List Char → Nat → List Char
  | [], _ => []
  | _ :: rest, Nat.succ k => replaceAux pat rep rest k
  | c :: rest, 0 =>
    if pat ≠ [] ∧ pat.isPrefixOf (c :: rest) = true then
      rep ++ replaceAux pat rep rest (pat.length - 1)
    else c :: replaceAux pat rep rest 0

/-- Python `s.replace(pat, rep)` for a non-empty pattern: every leftmost
non-overlapping occurrence is replaced, scanning resumes after the
replaced span. -/
def pyReplace (s pat rep : String) : String :=
  String.mk (replaceAux pat.toList rep.toList s.toList 0)

/-- Python indexing `l[i]` on a sequence: non-negative indices from the
front, negative indices wrap from the back, anything else is an
`IndexError` (`none`). -/
def pyIndex {α : Type} (l : List α) (i : Int) : Option α :=
  if 0 ≤ i then l.get? i.toNat
  else if -(l.length : Int) ≤ i then l.get? (i + l.length).toNat
  else none

/-! ## QueryProcessor (`search_engine/processors/query.py`) -/

/-- `QueryProcessor.extract_categories`: every known category occurring as
a substring of the lowercased query; the full known list when none does. -/
def extract_categories (cats : List String) (query : String) : List String :=
  let q := pyLower query
  let found := cats.filter (fun c => containsSub q c)
  if found.isEmpty then cats else found

/-- The "no X" scan of `QueryProcessor.extract_negations`: for every token
equal to "no" that has a successor token, that successor unless it is a
known category name. -/
def noNegs (cats : List String) : List String → List String
  | w :: nw :: rest =>
    (if w = "no" ∧ nw ∉ cats then [nw] else []) ++ noNegs cats (nw :: rest)
  | _ => []

/-- The "without" branch of `QueryProcessor.extract_negations`: when the
substring "without" occurs, split on it and take the first token of the
second field (text between the first and second occurrence), unless that
token is a known category name. -/
def withoutNegs (cats : List String) (q : String) : List String :=
  if containsSub q "without" then
    match splitOnStr "without" q with
    | _ :: part1 :: _ =>
      match pySplitWords (pyStrip part1) with
      | t :: _ => if t ∈ cats then [] else [t]
      | [] => []
    | _ => []
  else []

/-- `QueryProcessor.extract_negations`. The source ends with
`list(set(negations))`, whose enumeration order Python leaves unspecified;
the model deduplicates keeping first occurrences and the theorems about it
only use set membership. -/
def extract_negations (cats : List String) (query : String) : List String :=
  let q := pyLower query
  let words := pySplitWords q
  (noNegs cats words ++ withoutNegs cats q).dedup

/-- The five templated probe phrases plus the synonym-expansion phrases of
`QueryProcessor.get_decoration_terms` for one negated term. -/
def decoTermsFor (category neg : String) : List String :=
  [category ++ " with " ++ neg, neg ++ " " ++ category,
   category ++ " featuring " ++ neg, neg ++ "s on " ++ category,
   category ++ " set with " ++ neg ++ "s"]
  ++ (if containsSub neg "diamond" || containsSub neg "stone" ||
        containsSub neg "gem" then
      ["jeweled " ++ category, "sparkly " ++ category,
       category ++ " with stones", category ++ " with gems"] else [])
  ++ (if containsSub neg "pendant" || containsSub neg "charm" then
      [category ++ " with pendant", category ++ " with charm",
       "pendant " ++ category, "charm " ++ category] else [])
  ++ (if containsSub neg "pattern" || containsSub neg "design" ||
        containsSub neg "engraving" then
      ["patterned " ++ category, "engraved " ++ category,
       "ornate " ++ category, category ++ " with design"] else [])

/-- `QueryProcessor.get_decoration_terms` (the final `list(set(...))`
modelled as first-occurrence deduplication, as in `extract_negations`). -/
def get_decoration_terms (category : String) (negations : List String) :
    List String :=
  ((negations.map (decoTermsFor category)).flatten).dedup

/-- `QueryProcessor.get_plain_terms`. -/
def get_plain_terms (category : String) : List String :=
  if category = "ring" then
    ["plain gold ring", "simple ring band", "smooth metal ring",
     "minimalist ring", "wedding band", "plain ring"]
  else if category = "necklace" then
    ["plain gold necklace", "simple chain necklace", "minimalist necklace",
     "basic necklace chain", "smooth necklace"]
  else ["plain simple " ++ category]

/-- `QueryProcessor.enhance_query`: lowercase the query, then for each
negation term (in the order the caller's list presents them) replace
"no neg" by "plain simple" and "without neg" by "minimalist smooth".
The `category` parameter is unused, as in the source. -/
def enhance_query (query category : String) (negations : List String) :
    String :=
  let enhanced := pyLower query
  negations.foldl
    (fun e neg =>
      pyReplace (pyReplace e ("no " ++ neg) "plain simple")
        ("without " ++ neg) "minimalist smooth")
    enhanced

/-! ## Data model

Scored points come back from the external Qdrant index; vector components
and scores are modelled as `ℚ` (the float values the code manipulates are
finite rationals and every comparison the pipeline performs is exact). -/

/-- A stored point returned by `client.search` together with its payload
and raw stored vector. -/
structure Point where
  id : Nat
  image_path : String
  category : String
  score : ℚ
  vector : List ℚ
deriving DecidableEq

/-- One formatted entry of the `results` list built by the search
functions. -/
structure ResultItem where
  id : Nat
  image_path : String
  category : String
  similarity_score : ℚ
  plain_score : Option ℚ
  decoration_score : Option ℚ
deriving DecidableEq

/-- The four per-request counters of `filter_stats` in `search`. -/
structure FilterStats where
  semantic_matches : Nat
  category_filtered : Nat
  negation_filtered : Nat
  final_results : Nat
deriving DecidableEq

/-- The response dictionary built by `search`. -/
structure SearchResponse where
  query : String
  enhanced_query : String
  categories : List String
  negations : List String
  results : List ResultItem
  total_results : Nat
  filter_stats : FilterStats
deriving DecidableEq

/-! ## Similarity scores (`search.py`, stage 3) -/

/-- Dot product of two equal-length vectors (`probe @ img_emb.T`). -/
def dotQ (v w : List ℚ) : ℚ :=
  (List.zipWith (· * ·) v w).foldl (· + ·) 0

/-- torch `.max().item()` over a non-empty score tensor (0 for the empty
tensor, which the pipeline never produces: probe lists are non-empty
whenever stage 3 runs). -/
def listMax : List ℚ → ℚ
  | [] => 0
  | x :: xs => xs.foldl max x

/-- `max_decoration` of a candidate: maximum similarity of its
(normalized) stored vector against the decoration probe embeddings. The
torch unit-normalization of the stored vector is the external numeric
kernel `nv`. -/
def decorationScoreOf (dE : List (List ℚ)) (nv : List ℚ → List ℚ)
    (p : Point) : ℚ :=
  listMax (dE.map (fun e => dotQ e (nv p.vector)))

/-- `max_plain` of a candidate, same shape as `decorationScoreOf`. -/
def plainScoreOf (pE : List (List ℚ)) (nv : List ℚ → List ℚ)
    (p : Point) : ℚ :=
  listMax (pE.map (fun e => dotQ e (nv p.vector)))

/-! ## The three-stage filter (`search.py`, `search`) -/

/-- Stage 2: keep candidates whose payload category lies in the resolved
category list; with an empty resolved list the stage is skipped. -/
def stage2 (filter_categories : List String) (pts : List Point) :
    List Point :=
  if filter_categories.isEmpty then pts
  else pts.filter (fun p => filter_categories.contains p.category)

/-- Descending order on the `max_plain` component of the stage-3 triples
(`sorted(..., key=lambda x: x[1], reverse=True)`). -/
def plainDescRel (a b : Point × ℚ × ℚ) : Prop := b.2.1 ≤ a.2.1

instance : DecidableRel plainDescRel := fun a b =>
  inferInstanceAs (Decidable (b.2.1 ≤ a.2.1))

instance : IsTotal (Point × ℚ × ℚ) plainDescRel :=
  ⟨fun a b => le_total b.2.1 a.2.1⟩

instance : IsTrans (Point × ℚ × ℚ) plainDescRel :=
  ⟨fun _ _ _ h1 h2 => le_trans h2 h1⟩

/-- Stage 3: score every surviving candidate against the decoration and
plain probe embeddings, keep it iff
`max_decoration < max_decoration_score` and `max_plain > min_plain_score`,
then sort the survivors descending by `max_plain`. Triples are
`(point, max_plain, max_decoration)` as in the source. -/
def stage3 (dE pE : List (List ℚ)) (maxDeco minPlain : ℚ)
    (nv : List ℚ → List ℚ) (pts : List Point) : List (Point × ℚ × ℚ) :=
  List.insertionSort plainDescRel
    (pts.filterMap (fun p =>
      if decorationScoreOf dE nv p < maxDeco ∧
          plainScoreOf pE nv p > minPlain then
        some (p, plainScoreOf pE nv p, decorationScoreOf dE nv p)
      else none))

/-- `categories or self.query_processor.extract_categories(query)`: an
absent or empty caller-supplied list falls back to extraction. -/
def resolvedCategories (cats : List String)
    (categories : Option (List String)) (query : String) : List String :=
  match categories with
  | some cs => if cs.isEmpty then extract_categories cats query else cs
  | none => extract_categories cats query

/-- `category = filter_categories[0] if filter_categories else "jewelry"`. -/
def searchCategory (cats : List String) (categories : Option (List String))
    (query : String) : String :=
  (resolvedCategories cats categories query).headD "jewelry"

/-- The `enhanced_query` a search request produces. -/
def searchEnhanced (cats : List String) (categories : Option (List String))
    (query : String) : String :=
  enhance_query query (searchCategory cats categories query)
    (extract_negations cats query)

/-- The decoration probe embeddings of a request (`batch_embed_texts` of
the decoration terms; `embedText` is the external CLIP model). -/
def searchDecoEmbs (cats : List String) (embedText : String → List ℚ)
    (categories : Option (List String)) (query : String) :
    List (List ℚ) :=
  (get_decoration_terms (searchCategory cats categories query)
    (extract_negations cats query)).map embedText

/-- The plain probe embeddings of a request. -/
def searchPlainEmbs (cats : List String) (embedText : String → List ℚ)
    (categories : Option (List String)) (query : String) :
    List (List ℚ) :=
  (get_plain_terms (searchCategory cats categories query)).map embedText

/-- Stage 1: the `semantic_top_k` nearest neighbours of the embedded
enhanced query, as returned by the external index (`clientSearch`). -/
def searchStage1 (cats : List String) (embedText : String → List ℚ)
    (clientSearch : List ℚ → Nat → List Point)
    (categories : Option (List String)) (query : String) (stk : Nat) :
    List Point :=
  clientSearch (embedText (searchEnhanced cats categories query)) stk

/-- The full `search` function of `search.py`. The source guards stage 3
on `negations and decoration_embeddings is not None and plain_embeddings
is not None`; the two embedding lists are computed exactly when negations
were extracted, so the guard reduces to the negation list being
non-empty. -/
def search (cats : List String) (embedText : String → List ℚ)
    (nv : List ℚ → List ℚ) (clientSearch : List ℚ → Nat → List Point)
    (query : String) (categories : Option (List String)) (top_k : Nat)
    (maxDeco minPlain : ℚ) (stk : Nat) : SearchResponse :=
  let filter_categories := resolvedCategories cats categories query
  let negations := extract_negations cats query
  let semantic_points := searchStage1 cats embedText clientSearch categories query stk
  let filtered_points := stage2 filter_categories semantic_points
  let afterNeg : List (Point × Option ℚ × Option ℚ) :=
    if negations.isEmpty then
      filtered_points.map (fun p => (p, none, none))
    else
      (stage3 (searchDecoEmbs cats embedText categories query)
        (searchPlainEmbs cats embedText categories query)
        maxDeco minPlain nv filtered_points).map
        (fun x => (x.1, some x.2.1, some x.2.2))
  let results := (afterNeg.take top_k).map (fun x =>
    ({ id := x.1.id, image_path := x.1.image_path,
       category := x.1.category, similarity_score := x.1.score,
       plain_score := x.2.1, decoration_score := x.2.2 } : ResultItem))
  { query := query
    enhanced_query := searchEnhanced cats categories query
    categories := filter_categories
    negations := negations
    results := results
    total_results := results.length
    filter_stats :=
      { semantic_matches := semantic_points.length
        category_filtered :=
          if filter_categories.isEmpty then 0 else filtered_points.length
        negation_filtered :=
          if negations.isEmpty then 0 else
            (stage3 (searchDecoEmbs cats embedText categories query)
              (searchPlainEmbs cats embedText categories query)
              maxDeco minPlain nv filtered_points).length
        final_results := results.length } }

/-! ## Recommendations (`recommendations.py`) -/

/-- The response dictionary built by `recommend`; its `filter_stats` dict
holds a single `semantic_matches` key. -/
structure RecommendResponse where
  query : String
  enhanced_query : String
  categories : List String
  negations : List String
  results : List ResultItem
  total_results : Nat
  semantic_matches : Nat
deriving DecidableEq

/-- `recommend`: reject ids `>= len(image_embeddings)` with a
`ValueError`, fetch the stored vector (Python indexing, so negative ids
wrap from the back), search for `top_k + 1` neighbours, drop the query
item and truncate to `top_k`. -/
def recommend (image_embeddings : List (List ℚ))
    (image_categories : List String)
    (clientSearch : List ℚ → Nat → List Point) (image_id : Int)
    (top_k : Nat) : Except String RecommendResponse :=
  if (image_embeddings.length : Int) ≤ image_id then
    Except.error ("Invalid image_id: " ++ toString image_id)
  else
    match pyIndex image_embeddings image_id,
        pyIndex image_categories image_id with
    | some img_embedding, some cat =>
      let results := clientSearch img_embedding (top_k + 1)
      let formatted := (results.filter
          (fun p => (p.id : Int) != image_id)).map
        (fun p => ({ id := p.id, image_path := p.image_path,
                     category := p.category, similarity_score := p.score,
                     plain_score := none,
                     decoration_score := none } : ResultItem))
      Except.ok
        { query := "Similar to image " ++ toString image_id
          enhanced_query := "Recommendations for " ++ cat
          categories := [cat]
          negations := []
          results := formatted.take top_k
          total_results := (formatted.take top_k).length
          semantic_matches := results.length }
    | _, _ => Except.error "IndexError"

/-! ## Embedding cache (`handlers/embeddings.py`)

The on-disk pickle store is modelled as a map from cache key to the stored
vector sequence. The key itself is the md5 digest of the model name joined
with the sorted source-path list; the digest is an external hash, so the
theorems quantify over keys. -/

/-- The cache directory contents: cache key to pickled embedding list. -/
def CacheState : Type := String → Option (List (List ℚ))

/-- `save_embeddings_cache`: persist unconditionally, overwriting any
prior entry for the key. -/
def save_embeddings_cache (st : CacheState) (cache_key : String)
    (embeddings : List (List ℚ)) : CacheState :=
  fun k => if k = cache_key then some embeddings else st k

/-- `load_embeddings_cache`: return the stored vectors only when their
count equals the expected source-list length; any mismatch or absent
entry is a silent miss (`none`), never an error. -/
def load_embeddings_cache (st : CacheState) (cache_key : String)
    (expected_count : Nat) : Option (List (List ℚ)) :=
  match st cache_key with
  | some cached_data =>
    if cached_data.length = expected_count then some cached_data else none
  | none => none

/-! ## Hybrid query combination (`search.py`, `search_by_image_and_text`)

`0.6 * img_embedding + 0.4 * text_embedding`, then division by the L2
norm. This is the one genuinely geometric claim, so it is modelled over
`EuclideanSpace ℝ (Fin n)` — numpy float vectors with the L2 norm. -/

/-- The weighted combination `0.6 * image + 0.4 * text`. -/
noncomputable def combineEmbeddings (n : ℕ)
    (a b : EuclideanSpace ℝ (Fin n)) : EuclideanSpace ℝ (Fin n) :=
  (0.6 : ℝ) • a + (0.4 : ℝ) • b

/-- A concrete unit vector of `EuclideanSpace ℝ (Fin 1)`. -/
noncomputable def unitVec1 : EuclideanSpace ℝ (Fin 1) :=
  EuclideanSpace.single 0 1

/-! ## Spec-side definitions and concrete fixtures -/

/-- The suffix of the haystack after the first occurrence of `needle`
(`none` when it does not occur). Spec-side helper for the claimed reading
of the "without" rule. -/
def afterFirstOcc (needle : List Char) : List Char → Option (List Char)
  | [] => if needle.isEmpty then some [] else none
  | c :: rest =>
    if needle.isPrefixOf (c :: rest) = true then
      some (List.drop needle.length (c :: rest))
    else afterFirstOcc needle rest

/-- Spec-side reading of the "without" clause: the first whitespace token
of the text after the first occurrence of the substring "without" in the
lowercased query. -/
def specFirstTokenAfterWithout (q : String) : Option String :=
  match afterFirstOcc "without".toList (pyLower q).toList with
  | some rest => ((splitWordsAux [] rest).map String.mk).head?
  | none => none

/-- Descending order on the optional `plain_score` of formatted results
(absent scores read as 0; in the negation branch every score is present). -/
def resultPlainDesc (a b : ResultItem) : Prop :=
  b.plain_score.getD 0 ≤ a.plain_score.getD 0

/-- Fixture: an embedding model that distinguishes plain probe phrases
from the rest. -/
def embedW : String → List ℚ := fun s =>
  if containsSub s "plain" then [1] else [0]

/-- Fixture: an embedding model ignoring its input. -/
def constEmbed : String → List ℚ := fun _ => [1]

/-- Fixture: a stored point of category "ring". -/
def pointW : Point :=
  { id := 0, image_path := "a.jpg", category := "ring", score := 9 / 10,
    vector := [1] }

/-- Fixture: an index that returns the single point `pointW`. -/
def clientW : List ℚ → Nat → List Point := fun _ _ => [pointW]

/-! ## Shared lemmas -/

/-- Stage-3 membership characterization: a scored triple is in the stage-3
output exactly when its point survived stage 2, carries its own scores,
and the two threshold comparisons both pass. -/
theorem mem_stage3 (dE pE : List (List ℚ)) (tD tP : ℚ)
    (nv : List ℚ → List ℚ) (pts : List Point) (p : Point) (pl d : ℚ) :
    (p, pl, d) ∈ stage3 dE pE tD tP nv pts ↔
      p ∈ pts ∧ pl = plainScoreOf pE nv p ∧ d = decorationScoreOf dE nv p ∧
        decorationScoreOf dE nv p < tD ∧ plainScoreOf pE nv p > tP := by
  unfold stage3
  rw [List.mem_insertionSort, List.mem_filterMap]
  constructor
  · rintro ⟨a, ha, hfa⟩
    by_cases hc : decorationScoreOf dE nv a < tD ∧ plainScoreOf pE nv a > tP
    · rw [if_pos hc] at hfa
      simp only [Option.some.injEq, Prod.mk.injEq] at hfa
      obtain ⟨rfl, h2, h3⟩ := hfa
      exact ⟨ha, h2.symm, h3.symm, hc.1, hc.2⟩
    · rw [if_neg hc] at hfa
      exact absurd hfa (by simp)
  · rintro ⟨hp, hpl, hd, h1, h2⟩
    refine ⟨p, hp, ?_⟩
    rw [if_pos ⟨h1, h2⟩, hpl, hd]

/-- Stage 2 output is a sublist of its input (relative order preserved). -/
theorem stage2_sublist (cs : List String) (pts : List Point) :
    (stage2 cs pts).Sublist pts := by
  unfold stage2
  split
  · exact List.Sublist.refl pts
  · exact List.filter_sublist pts

/-- Membership characterization of the "no X" scan: exactly the tokens
that follow an occurrence of the token "no" and are not category names. -/
theorem mem_noNegs (cats : List String) (ws : List String) (x : String) :
    x ∈ noNegs cats ws ↔
      ∃ i, ws.get? i = some "no" ∧ ws.get? (i + 1) = some x ∧ x ∉ cats := by
  induction ws generalizing x with
  | nil =>
    constructor
    · intro h; exact absurd h (by simp [noNegs])
    · rintro ⟨i, h1, _, _⟩
      rw [List.get?_nil] at h1
      exact absurd h1 (by simp)
  | cons w tail ih =>
    cases tail with
    | nil =>
      constructor
      · intro h; exact absurd h (by simp [noNegs])
      · rintro ⟨i, _, h2, _⟩
        rw [List.get?_cons_succ, List.get?_nil] at h2
        exact absurd h2 (by simp)
    | cons nw rest =>
      rw [noNegs, List.mem_append, ih x]
      constructor
      · rintro (hif | ⟨i, h1, h2, h3⟩)
        · by_cases hc : w = "no" ∧ nw ∉ cats
          · rw [if_pos hc] at hif
            rw [List.mem_singleton] at hif
            subst hif
            exact ⟨0, by simpa using hc.1, by simp, hc.2⟩
          · rw [if_neg hc] at hif
            exact absurd hif (by simp)
        · exact ⟨i + 1, by simpa using h1, by simpa using h2, h3⟩
      · rintro ⟨i, h1, h2, h3⟩
        cases i with
        | zero =>
          have h1' : w = "no" := by simpa using h1
          have h2' : nw = x := by simpa using h2
          left
          rw [if_pos ⟨h1', by rw [h2']; exact h3⟩, h2']
          exact List.mem_singleton_self x
        | succ j =>
          right
          exact ⟨j, by simpa using h1, by simpa using h2, h3⟩

/-- Membership characterization of the "without" branch: the first token
of the field between the first and second occurrence of "without". -/
theorem mem_withoutNegs (cats : List String) (q : String) (x : String) :
    x ∈ withoutNegs cats q ↔
      containsSub q "without" = true ∧
        ∃ seg, (splitOnStr "without" q).get? 1 = some seg ∧
          (pySplitWords (pyStrip seg)).head? = some x ∧ x ∉ cats := by
  unfold withoutNegs
  by_cases hw : containsSub q "without"
  · rw [if_pos hw]
    cases hsp : splitOnStr "without" q with
    | nil => simp [hw, hsp]
    | cons p0 tail0 =>
      cases tail0 with
      | nil => simp [hw, hsp]
      | cons p1 rest1 =>
        cases hwd : pySplitWords (pyStrip p1) with
        | nil => simp [hw, hsp, hwd]
        | cons t ts =>
          by_cases hcat : t ∈ cats <;> simp [hw, hsp, hwd, hcat] <;> aesop
  · rw [if_neg hw]
    simp only [List.not_mem_nil, false_iff, not_and]
    intro hc
    exact absurd hc hw

/-- A non-nil list has `isEmpty = false`. -/
theorem isEmpty_false_of_ne_nil {α : Type} {l : List α} (h : l ≠ []) :
    l.isEmpty = false := by
  cases l with
  | nil => exact absurd rfl h
  | cons a t => rfl

/-- Stage 2 never grows the candidate list. -/
theorem stage2_length_le (cs : List String) (pts : List Point) :
    (stage2 cs pts).length ≤ pts.length :=
  (stage2_sublist cs pts).length_le

/-- Stage 3 never grows the candidate list. -/
theorem stage3_length_le (dE pE : List (List ℚ)) (tD tP : ℚ)
    (nv : List ℚ → List ℚ) (pts : List Point) :
    (stage3 dE pE tD tP nv pts).length ≤ pts.length := by
  unfold stage3
  rw [List.length_insertionSort]
  exact List.length_filterMap_le _ _

/-- The `filter_stats` a search request reports, written out. -/
theorem search_filter_stats (cats : List String)
    (embedText : String → List ℚ) (nv : List ℚ → List ℚ)
    (clientSearch : List ℚ → Nat → List Point) (query : String)
    (categories : Option (List String)) (top_k : Nat)
    (maxDeco minPlain : ℚ) (stk : Nat) :
    (search cats embedText nv clientSearch query categories top_k maxDeco
        minPlain stk).filter_stats =
      { semantic_matches :=
          (searchStage1 cats embedText clientSearch categories query stk).length
        category_filtered :=
          if (resolvedCategories cats categories query).isEmpty then 0
          else (stage2 (resolvedCategories cats categories query)
            (searchStage1 cats embedText clientSearch categories query stk)).length
        negation_filtered :=
          if (extract_negations cats query).isEmpty then 0
          else (stage3 (searchDecoEmbs cats embedText categories query)
            (searchPlainEmbs cats embedText categories query) maxDeco minPlain
            nv (stage2 (resolvedCategories cats categories query)
              (searchStage1 cats embedText clientSearch categories query stk))).length
        final_results :=
          (((if (extract_negations cats query).isEmpty then
              (stage2 (resolvedCategories cats categories query)
                (searchStage1 cats embedText clientSearch categories query stk)).map
                (fun p => (p, (none : Option ℚ), (none : Option ℚ)))
            else (stage3 (searchDecoEmbs cats embedText categories query)
              (searchPlainEmbs cats embedText categories query) maxDeco minPlain
              nv (stage2 (resolvedCategories cats categories query)
                (searchStage1 cats embedText clientSearch categories query stk))).map
              (fun x => (x.1, some x.2.1, some x.2.2))).take top_k)).length } :=
  by
  unfold search
  simp [List.length_map]

/-- Results of `search` when negations were extracted: stage-3 survivors,
already sorted, truncated to `top_k` and formatted with their scores. -/
theorem search_results_neg (cats : List String)
    (embedText : String → List ℚ) (nv : List ℚ → List ℚ)
    (clientSearch : List ℚ → Nat → List Point) (query : String)
    (categories : Option (List String)) (top_k : Nat)
    (maxDeco minPlain : ℚ) (stk : Nat)
    (h : (extract_negations cats query).isEmpty = false) :
    (search cats embedText nv clientSearch query categories top_k maxDeco
        minPlain stk).results =
      ((stage3 (searchDecoEmbs cats embedText categories query)
          (searchPlainEmbs cats embedText categories query) maxDeco minPlain
          nv (stage2 (resolvedCategories cats categories query)
            (searchStage1 cats embedText clientSearch categories query stk))).take
        top_k).map (fun x =>
          { id := x.1.id, image_path := x.1.image_path,
            category := x.1.category, similarity_score := x.1.score,
            plain_score := some x.2.1, decoration_score := some x.2.2 }) := by
  unfold search
  simp only [h, Bool.false_eq_true, if_false]
  rw [← List.map_take, List.map_map]
  rfl

/-- Results of `search` when no negation was extracted: stage 3 is
skipped and the stage-2 list passes through in stage-1 order. -/
theorem search_results_nil (cats : List String)
    (embedText : String → List ℚ) (nv : List ℚ → List ℚ)
    (clientSearch : List ℚ → Nat → List Point) (query : String)
    (categories : Option (List String)) (top_k : Nat)
    (maxDeco minPlain : ℚ) (stk : Nat)
    (h : (extract_negations cats query).isEmpty = true) :
    (search cats embedText nv clientSearch query categories top_k maxDeco
        minPlain stk).results =
      ((stage2 (resolvedCategories cats categories query)
          (searchStage1 cats embedText clientSearch categories query stk)).take
        top_k).map (fun p =>
          { id := p.id, image_path := p.image_path, category := p.category,
            similarity_score := p.score, plain_score := none,
            decoration_score := none }) := by
  unfold search
  simp only [h, if_true]
  rw [← List.map_take, List.map_map]
  rfl

/-! ## Claim theorems -/

/-- C1: for a request with at least one extracted negation, a candidate
that survived the category filter is retained by the stage-3 filter iff
its decoration score (max similarity against the decoration probe
embeddings) is strictly below `max_decoration_score` and its plain score
(max similarity against the plain probe embeddings) is strictly above
`min_plain_score`; in particular a candidate with decoration score at or
above the threshold is excluded regardless of its plain score. -/
theorem search_stage3_retained_iff (cats : List String)
    (embedText : String → List ℚ) (nv : List ℚ → List ℚ)
    (clientSearch : List ℚ → Nat → List Point) (query : String)
    (categories : Option (List String)) (maxDeco minPlain : ℚ) (stk : Nat)
    (hneg : extract_negations cats query ≠ []) (p : Point)
    (hp : p ∈ stage2 (resolvedCategories cats categories query)
        (searchStage1 cats embedText clientSearch categories query stk)) :
    (∃ pl d, (p, pl, d) ∈
        stage3 (searchDecoEmbs cats embedText categories query)
          (searchPlainEmbs cats embedText categories query) maxDeco minPlain
          nv (stage2 (resolvedCategories cats categories query)
            (searchStage1 cats embedText clientSearch categories query stk))) ↔
      (decorationScoreOf (searchDecoEmbs cats embedText categories query)
          nv p < maxDeco ∧
        plainScoreOf (searchPlainEmbs cats embedText categories query)
          nv p > minPlain) := by
  constructor
  · rintro ⟨pl, d, hmem⟩
    have hch := (mem_stage3 _ _ _ _ _ _ _ _ _).mp hmem
    exact ⟨hch.2.2.2.1, hch.2.2.2.2⟩
  · rintro ⟨h1, h2⟩
    exact ⟨_, _, (mem_stage3 _ _ _ _ _ _ _ _ _).mpr ⟨hp, rfl, rfl, h1, h2⟩⟩

/-- Witness for C1: concrete request "ring with no diamonds" against a
one-point index; the point survives stage 2 and the equivalence is
instantiated there. -/
theorem search_stage3_retained_iff_witness :
    (∃ pl d, (pointW, pl, d) ∈
        stage3 (searchDecoEmbs ["ring", "necklace"] embedW none
            "ring with no diamonds")
          (searchPlainEmbs ["ring", "necklace"] embedW none
            "ring with no diamonds") (1 / 4) (28 / 100) id
          (stage2 (resolvedCategories ["ring", "necklace"] none
              "ring with no diamonds")
            (searchStage1 ["ring", "necklace"] embedW clientW none
              "ring with no diamonds" 100))) ↔
      (decorationScoreOf (searchDecoEmbs ["ring", "necklace"] embedW none
            "ring with no diamonds") id pointW < 1 / 4 ∧
        plainScoreOf (searchPlainEmbs ["ring", "necklace"] embedW none
            "ring with no diamonds") id pointW > 28 / 100) :=
  search_stage3_retained_iff ["ring", "necklace"] embedW id clientW
    "ring with no diamonds" none (1 / 4) (28 / 100) 100 (by decide) pointW
    (by
      rw [show stage2 (resolvedCategories ["ring", "necklace"] none
          "ring with no diamonds")
          (searchStage1 ["ring", "necklace"] embedW clientW none
            "ring with no diamonds" 100) = [pointW] from rfl]
      exact List.mem_singleton_self pointW)

/-- C2: with extracted negations the returned results are sorted in
descending `plain_score` order, both before and after truncation; with no
extracted negations stage 3 is skipped and the results are exactly the
stage-2 survivors in stage-1 order (their ids form a sublist of the
stage-1 id sequence), truncated and formatted without scores. -/
theorem search_rerank_by_plain_score (cats : List String)
    (embedText : String → List ℚ) (nv : List ℚ → List ℚ)
    (clientSearch : List ℚ → Nat → List Point) (query : String)
    (categories : Option (List String)) (top_k : Nat)
    (maxDeco minPlain : ℚ) (stk : Nat) :
    (extract_negations cats query ≠ [] →
      List.Sorted plainDescRel
        (stage3 (searchDecoEmbs cats embedText categories query)
          (searchPlainEmbs cats embedText categories query) maxDeco minPlain
          nv (stage2 (resolvedCategories cats categories query)
            (searchStage1 cats embedText clientSearch categories query stk))) ∧
      List.Sorted resultPlainDesc
        (search cats embedText nv clientSearch query categories top_k
          maxDeco minPlain stk).results) ∧
    (extract_negations cats query = [] →
      (search cats embedText nv clientSearch query categories top_k maxDeco
          minPlain stk).results =
        ((stage2 (resolvedCategories cats categories query)
            (searchStage1 cats embedText clientSearch categories query
              stk)).take top_k).map (fun p =>
          { id := p.id, image_path := p.image_path, category := p.category,
            similarity_score := p.score, plain_score := none,
            decoration_score := none }) ∧
      ((search cats embedText nv clientSearch query categories top_k maxDeco
          minPlain stk).results.map ResultItem.id).Sublist
        ((searchStage1 cats embedText clientSearch categories query
          stk).map Point.id)) := by
  constructor
  · intro hneg
    have hsorted : List.Sorted plainDescRel
        (stage3 (searchDecoEmbs cats embedText categories query)
          (searchPlainEmbs cats embedText categories query) maxDeco minPlain
          nv (stage2 (resolvedCategories cats categories query)
            (searchStage1 cats embedText clientSearch categories query
              stk))) := by
      unfold stage3
      exact List.sorted_insertionSort plainDescRel _
    refine ⟨hsorted, ?_⟩
    rw [search_results_neg cats embedText nv clientSearch query categories
      top_k maxDeco minPlain stk (isEmpty_false_of_ne_nil hneg)]
    refine List.Pairwise.map _ ?_
      (hsorted.sublist (List.take_sublist top_k _))
    intro a b hab
    simpa [resultPlainDesc] using hab
  · intro hnil
    have hres := search_results_nil cats embedText nv clientSearch query
      categories top_k maxDeco minPlain stk (by rw [hnil]; rfl)
    refine ⟨hres, ?_⟩
    rw [hres, List.map_map]
    have hsub : ((stage2 (resolvedCategories cats categories query)
        (searchStage1 cats embedText clientSearch categories query
          stk)).take top_k).Sublist
        (searchStage1 cats embedText clientSearch categories query stk) :=
      (List.take_sublist _ _).trans (stage2_sublist _ _)
    exact hsub.map _

/-- Witness for C2: both branches instantiated — the sortedness pair at
the negation query "ring with no diamonds" and the pass-through equation
at the negation-free query "gold ring", over the one-point index. -/
theorem search_rerank_by_plain_score_witness :
    (List.Sorted plainDescRel
        (stage3 (searchDecoEmbs ["ring", "necklace"] embedW none
            "ring with no diamonds")
          (searchPlainEmbs ["ring", "necklace"] embedW none
            "ring with no diamonds") (1 / 4) (28 / 100) id
          (stage2 (resolvedCategories ["ring", "necklace"] none
              "ring with no diamonds")
            (searchStage1 ["ring", "necklace"] embedW clientW none
              "ring with no diamonds" 100))) ∧
      List.Sorted resultPlainDesc
        (search ["ring", "necklace"] embedW id clientW
          "ring with no diamonds" none 5 (1 / 4) (28 / 100) 100).results) ∧
    (search ["ring", "necklace"] constEmbed id clientW "gold ring" none 5
        (1 / 4) (28 / 100) 100).results =
      ((stage2 (resolvedCategories ["ring", "necklace"] none "gold ring")
          (searchStage1 ["ring", "necklace"] constEmbed clientW none
            "gold ring" 100)).take 5).map (fun p =>
        { id := p.id, image_path := p.image_path, category := p.category,
          similarity_score := p.score, plain_score := none,
          decoration_score := none }) :=
  ⟨(search_rerank_by_plain_score ["ring", "necklace"] embedW id clientW
      "ring with no diamonds" none 5 (1 / 4) (28 / 100) 100).1 (by decide),
    ((search_rerank_by_plain_score ["ring", "necklace"] constEmbed id
      clientW "gold ring" none 5 (1 / 4) (28 / 100) 100).2 (by decide)).1⟩

/-- C3 counterexample: the query "gold ring" over a one-point index
extracts no negations, so `negation_filtered` stays 0 while
`final_results` is 1 — the claimed chain
semantic ≥ category ≥ negation ≥ final fails. -/
theorem filter_stats_chain_counterexample :
    ¬ ((search ["ring", "necklace"] constEmbed id clientW "gold ring" none 5
          (1 / 4) (28 / 100) 100).filter_stats.semantic_matches ≥
        (search ["ring", "necklace"] constEmbed id clientW "gold ring" none 5
          (1 / 4) (28 / 100) 100).filter_stats.category_filtered ∧
      (search ["ring", "necklace"] constEmbed id clientW "gold ring" none 5
          (1 / 4) (28 / 100) 100).filter_stats.category_filtered ≥
        (search ["ring", "necklace"] constEmbed id clientW "gold ring" none 5
          (1 / 4) (28 / 100) 100).filter_stats.negation_filtered ∧
      (search ["ring", "necklace"] constEmbed id clientW "gold ring" none 5
          (1 / 4) (28 / 100) 100).filter_stats.negation_filtered ≥
        (search ["ring", "necklace"] constEmbed id clientW "gold ring" none 5
          (1 / 4) (28 / 100) 100).filter_stats.final_results) := by
  decide

/-- C3 amended: the chain semantic_matches ≥ category_filtered ≥
negation_filtered ≥ final_results holds for every request in which at
least one negation was extracted and the resolved category list is
non-empty (whenever a stage is skipped its counter stays 0, so the chain
can fail, as the counterexample shows). -/
theorem filter_stats_chain_amended (cats : List String)
    (embedText : String → List ℚ) (nv : List ℚ → List ℚ)
    (clientSearch : List ℚ → Nat → List Point) (query : String)
    (categories : Option (List String)) (top_k : Nat)
    (maxDeco minPlain : ℚ) (stk : Nat)
    (hneg : extract_negations cats query ≠ [])
    (hcat : resolvedCategories cats categories query ≠ []) :
    (search cats embedText nv clientSearch query categories top_k maxDeco
        minPlain stk).filter_stats.category_filtered ≤
      (search cats embedText nv clientSearch query categories top_k maxDeco
        minPlain stk).filter_stats.semantic_matches ∧
    (search cats embedText nv clientSearch query categories top_k maxDeco
        minPlain stk).filter_stats.negation_filtered ≤
      (search cats embedText nv clientSearch query categories top_k maxDeco
        minPlain stk).filter_stats.category_filtered ∧
    (search cats embedText nv clientSearch query categories top_k maxDeco
        minPlain stk).filter_stats.final_results ≤
      (search cats embedText nv clientSearch query categories top_k maxDeco
        minPlain stk).filter_stats.negation_filtered := by
  rw [search_filter_stats]
  simp only [isEmpty_false_of_ne_nil hneg, isEmpty_false_of_ne_nil hcat,
    Bool.false_eq_true, if_false]
  refine ⟨stage2_length_le _ _, stage3_length_le _ _ _ _ _ _, ?_⟩
  rw [List.length_take, List.length_map]
  exact min_le_right _ _

/-- Witness for C3 amended: the chain at the concrete negation query
"ring with no diamonds" over the one-point index. -/
theorem filter_stats_chain_amended_witness :
    (search ["ring", "necklace"] embedW id clientW "ring with no diamonds"
        none 5 (1 / 4) (28 / 100) 100).filter_stats.category_filtered ≤
      (search ["ring", "necklace"] embedW id clientW "ring with no diamonds"
        none 5 (1 / 4) (28 / 100) 100).filter_stats.semantic_matches ∧
    (search ["ring", "necklace"] embedW id clientW "ring with no diamonds"
        none 5 (1 / 4) (28 / 100) 100).filter_stats.negation_filtered ≤
      (search ["ring", "necklace"] embedW id clientW "ring with no diamonds"
        none 5 (1 / 4) (28 / 100) 100).filter_stats.category_filtered ∧
    (search ["ring", "necklace"] embedW id clientW "ring with no diamonds"
        none 5 (1 / 4) (28 / 100) 100).filter_stats.final_results ≤
      (search ["ring", "necklace"] embedW id clientW "ring with no diamonds"
        none 5 (1 / 4) (28 / 100) 100).filter_stats.negation_filtered :=
  filter_stats_chain_amended ["ring", "necklace"] embedW id clientW
    "ring with no diamonds" none 5 (1 / 4) (28 / 100) 100 (by decide)
    (by decide)

/-- C8: after `put(key, V)`, a `get` on that key with expected count `n`
returns a sequence equal to `V` iff `n` equals the length of `V`, and any
count mismatch yields no value (a silent miss, never an error). -/
theorem cache_put_get_roundtrip (st : CacheState) (key : String)
    (V : List (List ℚ)) (n : Nat) :
    (load_embeddings_cache (save_embeddings_cache st key V) key n = some V ↔
      n = V.length) ∧
    (n ≠ V.length →
      load_embeddings_cache (save_embeddings_cache st key V) key n = none) := by
  have hload : load_embeddings_cache (save_embeddings_cache st key V) key n
      = if V.length = n then some V else none := by
    unfold load_embeddings_cache save_embeddings_cache
    rw [if_pos rfl]
  rw [hload]
  by_cases h : V.length = n
  · subst h
    simp
  · rw [if_neg h]
    exact ⟨⟨fun hfalse => absurd hfalse (by simp),
      fun hn => absurd hn.symm h⟩, fun _ => rfl⟩

/-- Witness for C8 at a concrete instance: storing one vector and asking
for two yields a miss. -/
theorem cache_put_get_roundtrip_witness :
    load_embeddings_cache
      (save_embeddings_cache (fun _ => none) "embeddings_k" [[1]])
      "embeddings_k" 2 = none :=
  (cache_put_get_roundtrip (fun _ => none) "embeddings_k" [[1]] 2).2
    (by decide)

/-- C9: for unit vectors `a`, `b` the weighted sum `0.6 a + 0.4 b` is
never the zero vector, and dividing it by its norm yields a vector of L2
norm 1. -/
theorem combine_unit_norm (n : ℕ) (a b : EuclideanSpace ℝ (Fin n))
    (ha : ‖a‖ = 1) (hb : ‖b‖ = 1) :
    combineEmbeddings n a b ≠ 0 ∧
      ‖(‖combineEmbeddings n a b‖⁻¹ : ℝ) • combineEmbeddings n a b‖ = 1 := by
  have hlow : (0.2 : ℝ) ≤ ‖combineEmbeddings n a b‖ := by
    have h1 : ‖(0.6 : ℝ) • a‖ - ‖-((0.4 : ℝ) • b)‖ ≤
        ‖(0.6 : ℝ) • a - -((0.4 : ℝ) • b)‖ := norm_sub_norm_le _ _
    rw [sub_neg_eq_add, norm_neg, norm_smul, norm_smul, ha, hb] at h1
    have h6 : ‖(0.6 : ℝ)‖ = 0.6 := by
      rw [Real.norm_eq_abs]; norm_num
    have h4 : ‖(0.4 : ℝ)‖ = 0.4 := by
      rw [Real.norm_eq_abs]; norm_num
    rw [h6, h4] at h1
    unfold combineEmbeddings
    linarith
  have hne : combineEmbeddings n a b ≠ 0 := by
    intro h0
    rw [h0, norm_zero] at hlow
    norm_num at hlow
  exact ⟨hne, norm_smul_inv_norm hne⟩

/-- Witness for C9 at the concrete unit vector `unitVec1`. -/
theorem combine_unit_norm_witness :
    combineEmbeddings 1 unitVec1 unitVec1 ≠ 0 ∧
      ‖(‖combineEmbeddings 1 unitVec1 unitVec1‖⁻¹ : ℝ) •
        combineEmbeddings 1 unitVec1 unitVec1‖ = 1 :=
  combine_unit_norm 1 unitVec1 unitVec1
    (by rw [unitVec1, EuclideanSpace.norm_single]; norm_num)
    (by rw [unitVec1, EuclideanSpace.norm_single]; norm_num)

/-- C6: for the request with query "ring with no diamonds" and no
explicit categories, whatever the embedding model, normalization kernel,
index contents and thresholds, the response carries
negations = "diamonds", resolved categories = "ring", and
enhanced_query = "ring with plain simple". -/
theorem scenario_ring_no_diamonds (embedText : String → List ℚ)
    (nv : List ℚ → List ℚ) (clientSearch : List ℚ → Nat → List Point)
    (top_k : Nat) (maxDeco minPlain : ℚ) (stk : Nat) :
    (search ["ring", "necklace"] embedText nv clientSearch
        "ring with no diamonds" none top_k maxDeco minPlain stk).negations
        = ["diamonds"] ∧
    (search ["ring", "necklace"] embedText nv clientSearch
        "ring with no diamonds" none top_k maxDeco minPlain stk).categories
        = ["ring"] ∧
    (search ["ring", "necklace"] embedText nv clientSearch
        "ring with no diamonds" none top_k maxDeco minPlain stk).enhanced_query
        = "ring with plain simple" :=
  ⟨rfl, rfl, rfl⟩

/-- C5 counterexample: in "without without x" the substring "without"
occurs and the first token after it is "without" (itself not a category
name), so by the claim it should be a negation candidate; the code reads
the token from the segment between the first two occurrences, which is
blank, and returns the empty set. -/
theorem extract_negations_double_without_counterexample :
    specFirstTokenAfterWithout "without without x" = some "without" ∧
      "without" ∉ (["ring", "necklace"] : List String) ∧
      "without" ∉ extract_negations ["ring", "necklace"] "without without x" ∧
      extract_negations ["ring", "necklace"] "without without x" = [] := by
  refine ⟨rfl, by decide, by decide, rfl⟩

/-- C5 amended: a token belongs to `extract_negations` iff it follows
some occurrence of the token "no" (and is not a category name), or the
substring "without" occurs and it is the first token of the field between
the first occurrence of "without" and the next one (or the end of the
string), again unless it is a category name; results are deduplicated,
and a trailing "no" contributes nothing (it has no successor token). -/
theorem extract_negations_characterization (cats : List String)
    (query : String) (x : String) :
    x ∈ extract_negations cats query ↔
      ((∃ i, (pySplitWords (pyLower query)).get? i = some "no" ∧
          (pySplitWords (pyLower query)).get? (i + 1) = some x ∧ x ∉ cats) ∨
        (containsSub (pyLower query) "without" = true ∧
          ∃ seg, (splitOnStr "without" (pyLower query)).get? 1 = some seg ∧
            (pySplitWords (pyStrip seg)).head? = some x ∧ x ∉ cats)) := by
  unfold extract_negations
  rw [List.mem_dedup, List.mem_append]
  exact or_congr (mem_noNegs cats _ x) (mem_withoutNegs cats _ x)

/-- C10: with no caller-supplied category list (absent or empty), the
resolved category set is never empty (given a non-empty known-category
list), the absent and empty cases coincide, and a category is resolved
iff it is known and either occurs as a substring of the lowercased query
or no known category does (the permissive default). -/
theorem resolved_categories_spec (cats : List String) (query : String)
    (hcats : cats ≠ []) :
    resolvedCategories cats none query ≠ [] ∧
    resolvedCategories cats (some []) query =
      resolvedCategories cats none query ∧
    ∀ c, c ∈ resolvedCategories cats none query ↔
      (c ∈ cats ∧ (containsSub (pyLower query) c = true ∨
        ∀ c' ∈ cats, containsSub (pyLower query) c' = false)) := by
  unfold resolvedCategories extract_categories
  by_cases hf : (cats.filter (fun c => containsSub (pyLower query) c)).isEmpty
  · have hnil : cats.filter (fun c => containsSub (pyLower query) c) = [] :=
      List.isEmpty_iff.mp hf
    have hall : ∀ c' ∈ cats, containsSub (pyLower query) c' = false := by
      intro c' hc'
      have := List.filter_eq_nil.mp hnil c' hc'
      simpa using this
    simp only [hf, if_true]
    refine ⟨hcats, rfl, ?_⟩
    intro c
    constructor
    · intro hc; exact ⟨hc, Or.inr hall⟩
    · intro hc; exact hc.1
  · simp only [hf, Bool.false_eq_true, if_false]
    have hne : cats.filter (fun c => containsSub (pyLower query) c) ≠ [] := by
      intro h0; rw [h0] at hf; exact hf rfl
    refine ⟨hne, rfl, ?_⟩
    intro c
    rw [List.mem_filter]
    constructor
    · intro hc; exact ⟨hc.1, Or.inl hc.2⟩
    · rintro ⟨hc, hor | hall⟩
      · exact ⟨hc, hor⟩
      · exfalso
        obtain ⟨w, hw⟩ := List.exists_mem_of_ne_nil _ hne
        have hwmem := List.mem_filter.mp hw
        rw [hall w hwmem.1] at hwmem
        exact absurd hwmem.2 (by simp)

/-- Witness for C10 at the deployed category list and the query
"gold ring". -/
theorem resolved_categories_spec_witness :
    resolvedCategories ["ring", "necklace"] none "gold ring" ≠ [] ∧
    resolvedCategories ["ring", "necklace"] (some []) "gold ring" =
      resolvedCategories ["ring", "necklace"] none "gold ring" ∧
    ("ring" ∈ resolvedCategories ["ring", "necklace"] none "gold ring" ↔
      ("ring" ∈ (["ring", "necklace"] : List String) ∧
        (containsSub (pyLower "gold ring") "ring" = true ∨
          ∀ c' ∈ (["ring", "necklace"] : List String),
            containsSub (pyLower "gold ring") c' = false))) :=
  ⟨(resolved_categories_spec ["ring", "necklace"] "gold ring"
      (by decide)).1,
    (resolved_categories_spec ["ring", "necklace"] "gold ring"
      (by decide)).2.1,
    (resolved_categories_spec ["ring", "necklace"] "gold ring"
      (by decide)).2.2 "ring"⟩

/-- C4 (code bug): the rewrite step is NOT deterministic in the negation
set. The query "ring no stone no stones" extracts the negation set
containing "stone" and "stones"; folding the replacements over its two
enumeration orders yields different enhanced queries, so the result
depends on Python's unspecified `set` iteration order. -/
theorem enhance_query_order_dependent :
    extract_negations ["ring", "necklace"] "ring no stone no stones"
        = ["stone", "stones"] ∧
    enhance_query "ring no stone no stones" "ring" ["stone", "stones"] ≠
      enhance_query "ring no stone no stones" "ring" ["stones", "stone"] := by
  constructor
  · rfl
  · decide

/-- C7 (code bug): `recommend` only rejects ids at or above the index
size, so the out-of-range id -1 over a 10-item index is accepted (Python
negative indexing silently reads the last stored vector) instead of
failing with the claimed invalid-argument error. -/
theorem recommend_negative_id_accepted :
    ((-1 : Int) < 0 ∨ (10 : Int) ≤ (-1 : Int)) ∧
      (recommend (List.replicate 10 [1]) (List.replicate 10 "ring")
        (fun _ _ => []) (-1) 2).toOption.isSome = true := by
  constructor
  · left; decide
  · decide

end JewelrySearch
